import Mathlib

/-!
Verification of the invoice application (`src/streamlit_app.py`).

The development shallowly embeds the two core components described by the
specification: the invoice counter store (`_load_invoice_number`,
`_save_invoice_number`) and the PDF invoice renderer
(`generate_invoice_pdf`), together with the preview/download button
actions that drive them.  Python floats are modelled as rationals,
Python ints as `Int`, and the persisted counter file as an
`Option String` (`none` = file absent).  The reportlab text-wrapping
helper `simpleSplit` and the Python built-ins `str`/`int`/`strip` are
external collaborators whose code is not part of the repository; they
are modelled from the specification's words, as noted in their doc
comments, and are kept fully computable.
-/

namespace InvoiceApp

/-! ## Counter store: models of the Python built-ins used by it -/

/-- Modelled from the spec: Python `str.strip()` as used in
`_load_invoice_number` (line 24 of `src/streamlit_app.py`), which removes
leading and trailing whitespace from the file's contents. -/
def pyStrip (s : String) : String :=
  ⟨((s.data.dropWhile Char.isWhitespace).reverse.dropWhile Char.isWhitespace).reverse⟩

/-- The decimal digit character for `d % 10`-style values (`d ≥ 9` maps
to `'9'`; the function is only ever applied to `d < 10`). -/
def digitChar (d : Nat) : Char :=
  if d = 0 then '0' else if d = 1 then '1' else if d = 2 then '2' else if d = 3 then '3'
  else if d = 4 then '4' else if d = 5 then '5' else if d = 6 then '6' else if d = 7 then '7'
  else if d = 8 then '8' else '9'

/-- Little-endian list of decimal digit characters of `n`. -/
def natDigitsRev (n : Nat) : List Char :=
  if h : n < 10 then [digitChar n]
  else digitChar (n % 10) :: natDigitsRev (n / 10)
termination_by n
decreasing_by exact Nat.div_lt_self (by omega) (by omega)

/-- Modelled from the spec: Python `str(...)` on a non-negative integer,
producing its plain decimal representation. -/
def pyNatStr (n : Nat) : String := ⟨(natDigitsRev n).reverse⟩

/-- Modelled from the spec: Python `str(...)` on an integer, as used by
`_save_invoice_number` (line 30), producing a plain decimal integer,
with a leading minus sign when negative. -/
def pyIntStr (i : Int) : String :=
  if i < 0 then ⟨'-' :: (natDigitsRev i.natAbs).reverse⟩ else pyNatStr i.toNat

/-- Numeric value of a list of decimal digit characters (big-endian). -/
def natOfChars (cs : List Char) : Nat :=
  cs.foldl (fun n c => n * 10 + (c.toNat - 48)) 0

/-- Parse a non-empty all-digit character list; `none` otherwise. -/
def parseNatChars (cs : List Char) : Option Nat :=
  if cs.isEmpty then none
  else if cs.all Char.isDigit then some (natOfChars cs) else none

/-- Modelled from the spec: Python `int(...)` on an (already stripped)
string, as used in `_load_invoice_number` (line 24): an optional sign
followed by at least one decimal digit; anything else fails. -/
def pyParseInt (s : String) : Option Int :=
  match s.data with
  | [] => none
  | c :: rest =>
    if c = '-' then (parseNatChars rest).map (fun n : Nat => -(n : Int))
    else if c = '+' then (parseNatChars rest).map (fun n : Nat => (n : Int))
    else (parseNatChars (c :: rest)).map (fun n : Nat => (n : Int))

/-- `_load_invoice_number` (lines 21–26): read the counter file, strip
and parse it as an integer; any failure (absent file, unparsable
contents) is caught by the bare `except` and yields the default 1001.
The function is total: no error escapes to the caller. -/
def _load_invoice_number (fs : Option String) : Int :=
  match fs with
  | none => 1001
  | some content =>
    match pyParseInt (pyStrip content) with
    | some n => n
    | none => 1001

/-- `_save_invoice_number` (lines 28–30): the string contents written to
the counter file, `str(num)`. -/
def _save_invoice_number (num : Int) : String := pyIntStr num

/-! ## PDF renderer: data model and layout constants

All geometry is from `generate_invoice_pdf` (lines 42–111).  Python
floats are modelled as rationals; `LETTER = (612, 792)`, `inch = 72`. -/

/-- One line item handed to the renderer: SKU, Description, Unit Price,
Quantity (columns of the dataframe `df`, lines 73–77). -/
structure LineItem where
  sku : String
  description : String
  unitPrice : Rat
  quantity : Int
deriving DecidableEq, Inhabited

/-- Invoice metadata (the dict built at lines 186–191 / 204–209). -/
structure Metadata where
  date : String
  tax_rate : Rat
  assembly : Rat
  delivery : Rat
deriving DecidableEq, Inhabited

def inch : Rat := 72
def pageWidth : Rat := 612
def pageHeight : Rat := 792
def margin : Rat := inch
def lineHeight : Rat := 14

/-- Column x-offsets (line 61): `{'sku': x, 'desc': x+60, 'unit': x+260,
'qty': x+340, 'amount': x+380}` with `x = margin`. -/
def colSku : Rat := margin
def colDesc : Rat := margin + 60
def colUnit : Rat := margin + 260
def colQty : Rat := margin + 340
def colAmount : Rat := margin + 380

/-- `desc_max_width = cols['unit'] - cols['desc'] - 4` (line 62). -/
def descMaxWidth : Rat := colUnit - colDesc - 4

/-- Vertical cursor after the header block (lines 48–69): start at
`height - margin`, subtract `0.4*inch` after the title, `0.3*inch` after
the invoice number/date line, `0.2*inch` after the column titles, and
`0.2*inch` after the separating rule.  Equals `640.8`. -/
def firstRowY : Rat :=
  pageHeight - margin - (2/5) * inch - (3/10) * inch - (1/5) * inch - (1/5) * inch

/-! ## PDF renderer: text wrapping (external collaborator) -/

/-- Split a character list at every character satisfying `p` (the
separators are consumed; empty fields are kept). -/
def splitChars (p : Char → Bool) : List Char → List (List Char)
  | [] => [[]]
  | c :: cs =>
    if p c then [] :: splitChars p cs
    else
      match splitChars p cs with
      | [] => [[c]]
      | l :: ls => (c :: l) :: ls

/-- Modelled from the spec: Python `str.split()` with no argument —
split on whitespace runs, dropping empty fields — used to cut a line
into words for wrapping. -/
def pyWords (s : String) : List String :=
  ((splitChars Char.isWhitespace s.data).map (fun l => (⟨l⟩ : String))).filter
    (fun w => w ≠ "")

/-- Greedy word-wrap step: `cur` is the line under construction and
`curW` its measured width; a further word is appended when the line,
a space and the word still fit in `maxW`, otherwise the line is emitted
and the word starts a new line. -/
def wrapGreedy (sw : String → Rat) (maxW : Rat) : List String → String → Rat → List String
  | [], cur, _ => [cur]
  | w :: ws, cur, curW =>
    if curW + sw " " + sw w ≤ maxW then
      wrapGreedy sw maxW ws (cur ++ " " ++ w) (curW + sw " " + sw w)
    else
      cur :: wrapGreedy sw maxW ws w (sw w)

/-- Wrap a single (newline-free) line of text: no words produce no
output lines; otherwise greedy word-wrap from the first word. -/
def wrapLine (sw : String → Rat) (maxW : Rat) (line : String) : List String :=
  match pyWords line with
  | [] => []
  | w :: ws => wrapGreedy sw maxW ws w (sw w)

/-- Modelled from the spec: reportlab's `simpleSplit(text, 'Helvetica',
10, desc_max_width)` (line 80), the renderer's external word-wrapping
collaborator: split the text on newlines and greedily word-wrap each
resulting line to the column width, measuring widths with the font
metric `sw`; an empty description yields zero wrapped lines.  The
metric is a parameter (font tables are not part of the repository). -/
def simpleSplit (sw : String → Rat) (maxW : Rat) (text : String) : List String :=
  (splitChars (fun c => c = '\n') text.data).flatMap
    (fun l => wrapLine sw maxW (⟨l⟩ : String))

/-! ## PDF renderer: the line-item loop and totals -/

/-- One rendered table row (lines 80–86): the draw calls anchored at the
row's top line `yTop` on page `page` (0-based).  `descLines` are the
wrapped description lines; line `i` is drawn at `yTop - i*lineHeight`
(line 82). -/
structure Row where
  sku : String
  descLines : List String
  unitPrice : Rat
  qty : Int
  amount : Rat
  yTop : Rat
  page : Nat
deriving DecidableEq, Inhabited

/-- The y-position at which wrapped description line `i` of a row is
drawn: `c.drawString(cols['desc'], y - i*line_height, line)` (line 82). -/
def descLineY (r : Row) (i : Nat) : Rat := r.yTop - (i : Rat) * lineHeight

/-- The cursor advance consumed by a row:
`y -= (len(desc_lines)*line_height) + 4` (line 87). -/
def rowAdvance (r : Row) : Rat := (r.descLines.length : Rat) * lineHeight + 4

/-- The data of one drawn row, as emitted by the draw calls at lines
80–86: SKU, wrapped description lines, unit price, quantity, amount. -/
def rowData (r : Row) : String × List String × Rat × Int × Rat :=
  (r.sku, r.descLines, r.unitPrice, r.qty, r.amount)

/-- The data the loop computes for a kept item (lines 77–86): its SKU,
its wrapped description, its unit price, its quantity, and the amount
`Unit Price × Quantity` (line 77). -/
def itemData (wrap : String → List String) (it : LineItem) :
    String × List String × Rat × Int × Rat :=
  (it.sku, wrap it.description, it.unitPrice, it.quantity,
   it.unitPrice * (it.quantity : Rat))

/-- Mutable state of the line-item loop: vertical cursor `y`, number of
page breaks taken so far `page`, and the running `subtotal`. -/
structure LoopState where
  y : Rat
  page : Nat
  subtotal : Rat
deriving DecidableEq, Inhabited

/-- The line-item loop (lines 72–91): items with `qty <= 0` are skipped
(`continue`, line 75); otherwise the amount is accumulated, the row is
drawn anchored at the current cursor, the cursor advances by the row
height plus a 4-point gap, and if it has then fallen strictly below the
bottom margin the page is finalized (`showPage`) and the cursor resets
to the top margin (lines 88–91). -/
def processItems (wrap : String → List String) (st : LoopState) :
    List LineItem → List Row × LoopState
  | [] => ([], st)
  | it :: rest =>
    if it.quantity ≤ 0 then processItems wrap st rest
    else
      let amount := it.unitPrice * (it.quantity : Rat)
      let descLines := wrap it.description
      let y1 := st.y - ((descLines.length : Rat) * lineHeight + 4)
      let st' : LoopState :=
        if y1 < margin then
          { y := pageHeight - margin, page := st.page + 1, subtotal := st.subtotal + amount }
        else
          { y := y1, page := st.page, subtotal := st.subtotal + amount }
      let res := processItems wrap st' rest
      ({ sku := it.sku, descLines := descLines, unitPrice := it.unitPrice,
         qty := it.quantity, amount := amount, yTop := st.y, page := st.page } :: res.1,
       res.2)

/-- The renderer's output, as far as it is observable: the invoice
number and date written in the header, the rendered rows, the totals
block values (lines 94–106), the cursor position after the loop, and
the total number of pages (`showPage` at each break plus the final
`showPage` at line 108). -/
structure RenderResult where
  invoiceNumber : Int
  date : String
  rows : List Row
  subtotal : Rat
  tax : Rat
  grand : Rat
  endY : Rat
  pages : Nat
deriving DecidableEq, Inhabited

/-- `generate_invoice_pdf` (lines 42–111), parameterized by the font
width metric `sw` used by the wrapping collaborator. -/
def generate_invoice_pdf (sw : String → Rat) (df : List LineItem) (number : Int)
    (metadata : Metadata) : RenderResult :=
  let res := processItems (simpleSplit sw descMaxWidth) ⟨firstRowY, 0, 0⟩ df
  let subtotal := res.2.subtotal
  let tax := subtotal * metadata.tax_rate / 100
  { invoiceNumber := number
    date := metadata.date
    rows := res.1
    subtotal := subtotal
    tax := tax
    grand := subtotal + tax + metadata.assembly + metadata.delivery
    endY := res.2.y
    pages := res.2.page + 1 }

/-- The pagination relation between two consecutively drawn rows
(lines 87–91): when the cursor, advanced past the first row, has fallen
strictly below the bottom margin, the next row starts a new page at the
top margin; otherwise it continues on the same page at the advanced
cursor. -/
def rowStep (r r' : Row) : Prop :=
  if r.yTop - rowAdvance r < margin then
    r'.page = r.page + 1 ∧ r'.yTop = pageHeight - margin
  else
    r'.page = r.page ∧ r'.yTop = r.yTop - rowAdvance r

/-! ## Button actions (lines 184–216) -/

/-- The preview button (lines 184–200): load the invoice number, render
the PDF, embed it in the page — and never write the counter file.  The
first component is the counter file after the action. -/
def previewAction (sw : String → Rat) (df : List LineItem) (md : Metadata)
    (fs : Option String) : Option String × RenderResult :=
  let num := _load_invoice_number fs
  let buf := generate_invoice_pdf sw df num md
  (fs, buf)

/-- The download button (lines 202–216): load the invoice number, render
the PDF, then persist `num + 1` via `_save_invoice_number` (line 210). -/
def downloadAction (sw : String → Rat) (df : List LineItem) (md : Metadata)
    (fs : Option String) : Option String × RenderResult :=
  let num := _load_invoice_number fs
  let buf := generate_invoice_pdf sw df num md
  (some (_save_invoice_number (num + 1)), buf)

/-- Observable counter-store events of one button action, in program
order: the load, the completion of the PDF render, and the save. -/
inductive CEv where
  | loadE (n : Int)
  | renderE
  | saveE (n : Int)
deriving DecidableEq

/-- One user-level operation: a preview, or a download whose render
either completes (`renderOk = true`) or raises (`renderOk = false`;
the exception aborts the handler before the save, lines 204–210). -/
inductive Op where
  | previewOp
  | downloadOp (renderOk : Bool)
deriving DecidableEq

/-- Effect of one operation on the counter file, with its event trace. -/
def opRun (fs : Option String) : Op → Option String × List CEv
  | Op.previewOp =>
    (fs, [CEv.loadE (_load_invoice_number fs), CEv.renderE])
  | Op.downloadOp true =>
    let num := _load_invoice_number fs
    (some (_save_invoice_number (num + 1)),
     [CEv.loadE num, CEv.renderE, CEv.saveE (num + 1)])
  | Op.downloadOp false =>
    (fs, [CEv.loadE (_load_invoice_number fs)])

/-- Run a sequence of operations, concatenating event traces. -/
def runOps : List Op → Option String → Option String × List CEv
  | [], fs => (fs, [])
  | op :: rest, fs =>
    let r1 := opRun fs op
    let r2 := runOps rest r1.1
    (r2.1, r1.2 ++ r2.2)

/-- Outcome of the file write attempted by `_save_invoice_number`
(lines 28–30): the surrounding `with open(...)`/`write` either succeeds
or raises an I/O error. -/
inductive WriteOutcome where
  | success
  | ioError (msg : String)
deriving DecidableEq

/-- `_save_invoice_number` with its I/O outcome made explicit: the
function body contains no exception handler, so a write failure
propagates to the caller unchanged, while success overwrites the
counter file with `str(num)`. -/
def saveAttempt (num : Int) : WriteOutcome → Except String (Option String)
  | WriteOutcome.success => Except.ok (some (_save_invoice_number num))
  | WriteOutcome.ioError e => Except.error e

/-! ## Concrete inputs used by example scenarios and counterexamples -/

/-- A width metric that measures every string as zero width (the wrap
results used with it never depend on the metric: every wrapped line
holds a single word). -/
def zeroWidth : String → Rat := fun _ => 0

/-- The spec's example scenario items: Widget at $10.00 quantity 2 and
Gadget at $5.00 quantity 0. -/
def exampleItems : List LineItem :=
  [⟨"A1", "Widget", 10, 2⟩, ⟨"A2", "Gadget", 5, 0⟩]

/-- The spec's example scenario metadata: tax 7%, assembly 3, delivery 2. -/
def exampleMetadata : Metadata := ⟨"2025-01-01", 7, 3, 2⟩

/-- A 42-line description (41 newlines): wraps to 42 single-word lines
under any width metric. -/
def tallDescription : String := "x\nx\nx\nx\nx\nx\nx\nx\nx\nx\nx\nx\nx\nx\nx\nx\nx\nx\nx\nx\nx\nx\nx\nx\nx\nx\nx\nx\nx\nx\nx\nx\nx\nx\nx\nx\nx\nx\nx\nx\nx\nx"

/-- A single line item whose description occupies 42 wrapped lines. -/
def tallItem : LineItem := ⟨"A1", tallDescription, 10, 1⟩

/-- An empty-description, zero-quantity line item. -/
def emptyDescItem : LineItem := ⟨"E0", "", 5, 0⟩

/-- An empty-description item with positive quantity. -/
def c8WitnessItem : LineItem := ⟨"E1", "", 5, 2⟩

/-- A line item with strictly negative quantity. -/
def negQtyItem : LineItem := ⟨"N1", "neg", 5, -3⟩

/-! ## Counter store: round-trip lemmas -/

theorem digitChar_isDigit (d : Nat) : (digitChar d).isDigit = true := by
  unfold digitChar
  repeat' split
  all_goals decide

theorem digitChar_not_whitespace (d : Nat) : (digitChar d).isWhitespace = false := by
  unfold digitChar
  repeat' split
  all_goals decide

theorem digitChar_ne_minus (d : Nat) : digitChar d ≠ '-' := by
  unfold digitChar
  repeat' split
  all_goals decide

theorem digitChar_ne_plus (d : Nat) : digitChar d ≠ '+' := by
  unfold digitChar
  repeat' split
  all_goals decide

theorem digitChar_toNat (d : Nat) (h : d < 10) : (digitChar d).toNat - 48 = d := by
  interval_cases d <;> decide

theorem natDigitsRev_ne_nil (n : Nat) : natDigitsRev n ≠ [] := by
  unfold natDigitsRev
  split <;> simp

theorem mem_natDigitsRev (n : Nat) : ∀ c ∈ natDigitsRev n, ∃ d, c = digitChar d := by
  induction n using Nat.strong_induction_on with
  | _ n ih =>
    unfold natDigitsRev
    split
    · intro c hc
      simp only [List.mem_singleton] at hc
      exact ⟨n, hc⟩
    · intro c hc
      rcases List.mem_cons.mp hc with h | h
      · exact ⟨n % 10, h⟩
      · exact ih (n / 10) (Nat.div_lt_self (by omega) (by omega)) c h

theorem natOfChars_append_singleton (cs : List Char) (c : Char) :
    natOfChars (cs ++ [c]) = natOfChars cs * 10 + (c.toNat - 48) := by
  simp [natOfChars, List.foldl_append]

theorem natOfChars_natDigitsRev (n : Nat) :
    natOfChars (natDigitsRev n).reverse = n := by
  induction n using Nat.strong_induction_on with
  | _ n ih =>
    unfold natDigitsRev
    split
    · next h =>
      simp [natOfChars, digitChar_toNat n h]
    · next h =>
      rw [List.reverse_cons, natOfChars_append_singleton,
        ih (n / 10) (Nat.div_lt_self (by omega) (by omega)),
        digitChar_toNat (n % 10) (Nat.mod_lt _ (by omega))]
      omega

theorem parseNatChars_natDigitsRev (n : Nat) :
    parseNatChars (natDigitsRev n).reverse = some n := by
  have hne : (natDigitsRev n).reverse ≠ [] := by
    simp [natDigitsRev_ne_nil n]
  have hall : ((natDigitsRev n).reverse).all Char.isDigit = true := by
    rw [List.all_eq_true]
    intro c hc
    rcases mem_natDigitsRev n c (List.mem_reverse.mp hc) with ⟨d, rfl⟩
    exact digitChar_isDigit d
  rw [parseNatChars, if_neg (by simpa using hne), if_pos hall,
    natOfChars_natDigitsRev]

theorem dropWhile_eq_self_of_not_head {p : Char → Bool} :
    ∀ l : List Char, (∀ c ∈ l, p c = false) → l.dropWhile p = l
  | [], _ => rfl
  | c :: cs, h => List.dropWhile_cons_of_neg (by simp [h c (by simp)])

theorem pyStrip_of_no_whitespace (l : List Char)
    (h : ∀ c ∈ l, c.isWhitespace = false) : pyStrip ⟨l⟩ = ⟨l⟩ := by
  unfold pyStrip
  rw [dropWhile_eq_self_of_not_head l (by intro c hc; exact h c hc),
    dropWhile_eq_self_of_not_head l.reverse
      (by intro c hc; exact h c (List.mem_reverse.mp hc)),
    List.reverse_reverse]

theorem pyStrip_pyIntStr (i : Int) : pyStrip (pyIntStr i) = pyIntStr i := by
  unfold pyIntStr
  split
  · exact pyStrip_of_no_whitespace _ (by
      intro c hc
      rcases List.mem_cons.mp hc with rfl | hc
      · decide
      · rcases mem_natDigitsRev _ c (List.mem_reverse.mp hc) with ⟨d, rfl⟩
        exact digitChar_not_whitespace d)
  · exact pyStrip_of_no_whitespace _ (by
      intro c hc
      rcases mem_natDigitsRev _ c (List.mem_reverse.mp hc) with ⟨d, rfl⟩
      exact digitChar_not_whitespace d)

theorem pyParseInt_cons (c : Char) (rest : List Char) :
    pyParseInt ⟨c :: rest⟩ =
      if c = '-' then (parseNatChars rest).map (fun n : Nat => -(n : Int))
      else if c = '+' then (parseNatChars rest).map (fun n : Nat => (n : Int))
      else (parseNatChars (c :: rest)).map (fun n : Nat => (n : Int)) := rfl

theorem pyParseInt_pyIntStr (i : Int) : pyParseInt (pyIntStr i) = some i := by
  unfold pyIntStr
  split
  · next hneg =>
    show pyParseInt ⟨'-' :: (natDigitsRev i.natAbs).reverse⟩ = some i
    rw [pyParseInt_cons, if_pos rfl, parseNatChars_natDigitsRev]
    simp only [Option.map_some', Option.some.injEq]
    omega
  · next hneg =>
    show pyParseInt (pyNatStr i.toNat) = some i
    rcases hd : (natDigitsRev i.toNat).reverse with _ | ⟨c, rest⟩
    · exact absurd (by simpa using hd) (natDigitsRev_ne_nil i.toNat)
    · have hcdig : ∃ d, c = digitChar d := by
        apply mem_natDigitsRev i.toNat c
        rw [← List.mem_reverse, hd]
        simp
      rcases hcdig with ⟨d, rfl⟩
      rw [pyNatStr, hd, pyParseInt_cons,
        if_neg (digitChar_ne_minus d), if_neg (digitChar_ne_plus d), ← hd,
        parseNatChars_natDigitsRev]
      simp only [Option.map_some', Option.some.injEq]
      omega

/-- Loading a file that was just written by a save returns the saved value. -/
theorem load_save_roundtrip (i : Int) :
    _load_invoice_number (some (_save_invoice_number i)) = i := by
  rw [_load_invoice_number, _save_invoice_number, pyStrip_pyIntStr,
    pyParseInt_pyIntStr]


/-! ## Renderer loop lemmas -/

theorem processItems_nil (wrap : String → List String) (st : LoopState) :
    processItems wrap st [] = ([], st) := rfl

theorem processItems_fst_map (wrap : String → List String) :
    ∀ (items : List LineItem) (st : LoopState),
      ((processItems wrap st items).1).map rowData
        = (items.filter (fun it => decide (0 < it.quantity))).map (itemData wrap)
  | [], _ => rfl
  | it :: rest, st => by
    by_cases hq : it.quantity ≤ 0
    · have hd : decide (0 < it.quantity) = false := by simp; omega
      simp only [processItems, if_pos hq, List.filter_cons, hd, Bool.false_eq_true,
        if_false]
      exact processItems_fst_map wrap rest st
    · have hd : decide (0 < it.quantity) = true := by simp; omega
      simp only [processItems, if_neg hq, List.filter_cons, hd, if_true, List.map_cons]
      refine congrArg₂ _ rfl ?_
      exact processItems_fst_map wrap rest _

theorem processItems_subtotal (wrap : String → List String) :
    ∀ (items : List LineItem) (st : LoopState),
      (processItems wrap st items).2.subtotal
        = st.subtotal
          + ((items.filter (fun it => decide (0 < it.quantity))).map
              (fun it => it.unitPrice * (it.quantity : Rat))).sum
  | [], st => by simp [processItems_nil]
  | it :: rest, st => by
    by_cases hq : it.quantity ≤ 0
    · have hd : decide (0 < it.quantity) = false := by simp; omega
      simp only [processItems, if_pos hq, List.filter_cons, hd, Bool.false_eq_true,
        if_false]
      exact processItems_subtotal wrap rest st
    · have hd : decide (0 < it.quantity) = true := by simp; omega
      simp only [processItems, if_neg hq, List.filter_cons, hd, if_true, List.map_cons,
        List.sum_cons]
      rw [processItems_subtotal wrap rest]
      by_cases hy : st.y - ((wrap it.description).length * lineHeight + 4) < margin <;>
        simp only [hy, if_true, if_false, reduceIte] <;> ring

theorem processItems_head (wrap : String → List String) :
    ∀ (items : List LineItem) (st : LoopState) (r : Row),
      ((processItems wrap st items).1).head? = some r →
        r.yTop = st.y ∧ r.page = st.page
  | [], _, _ => by simp [processItems_nil]
  | it :: rest, st, r => by
    by_cases hq : it.quantity ≤ 0
    · simp only [processItems, if_pos hq]
      exact processItems_head wrap rest st r
    · simp only [processItems, if_neg hq, List.head?_cons, Option.some.injEq]
      rintro rfl
      exact ⟨rfl, rfl⟩

theorem margin_le_top : margin ≤ pageHeight - margin := by
  norm_num [margin, pageHeight, inch]

theorem processItems_yTop_bounds (wrap : String → List String) :
    ∀ (items : List LineItem) (st : LoopState),
      margin ≤ st.y → st.y ≤ pageHeight - margin →
      ∀ r ∈ (processItems wrap st items).1,
        margin ≤ r.yTop ∧ r.yTop ≤ pageHeight - margin
  | [], _, _, _ => by simp [processItems_nil]
  | it :: rest, st, hlo, hhi => by
    by_cases hq : it.quantity ≤ 0
    · simp only [processItems, if_pos hq]
      exact processItems_yTop_bounds wrap rest st hlo hhi
    · simp only [processItems, if_neg hq, List.mem_cons]
      rintro r (rfl | hr)
      · exact ⟨hlo, hhi⟩
      · set y1 := st.y - ((wrap it.description).length * lineHeight + 4) with hy1
        by_cases hy : y1 < margin
        · rw [if_pos hy] at hr
          exact processItems_yTop_bounds wrap rest _ margin_le_top (le_refl _) r hr
        · rw [if_neg hy] at hr
          refine processItems_yTop_bounds wrap rest _ (not_lt.mp hy) ?_ r hr
          show y1 ≤ pageHeight - margin
          have h0 : (0 : Rat) ≤ ((wrap it.description).length : Rat) * lineHeight :=
            mul_nonneg (by positivity) (by norm_num [lineHeight])
          rw [hy1]
          linarith

theorem processItems_chain (wrap : String → List String) :
    ∀ (items : List LineItem) (st : LoopState),
      List.Chain' rowStep (processItems wrap st items).1
  | [], _ => by simp [processItems_nil]
  | it :: rest, st => by
    by_cases hq : it.quantity ≤ 0
    · simp only [processItems, if_pos hq]
      exact processItems_chain wrap rest st
    · simp only [processItems, if_neg hq]
      rw [List.chain'_cons']
      constructor
      · intro b hb
        have hhead := processItems_head wrap rest _ b hb
        set y1 := st.y - ((wrap it.description).length * lineHeight + 4) with hy1
        rw [rowStep, rowAdvance]
        by_cases hy : y1 < margin
        · rw [if_pos (by simpa [hy1] using hy)]
          rw [if_pos hy] at hhead
          exact ⟨hhead.2, hhead.1⟩
        · rw [if_neg (by simpa [hy1] using hy)]
          rw [if_neg hy] at hhead
          exact ⟨hhead.2, hhead.1⟩
      · exact processItems_chain wrap rest _

theorem processItems_skip (wrap : String → List String) (it : LineItem)
    (hq : it.quantity ≤ 0) :
    ∀ (pre post : List LineItem) (st : LoopState),
      processItems wrap st (pre ++ it :: post) = processItems wrap st (pre ++ post)
  | [], post, st => by simp only [List.nil_append, processItems, if_pos hq]
  | p :: pre, post, st => by
    by_cases hp : p.quantity ≤ 0
    · simp only [List.cons_append, processItems, if_pos hp]
      exact processItems_skip wrap it hq pre post st
    · have ih := processItems_skip wrap it hq pre post
      simp only [List.cons_append, List.append_eq, processItems, if_neg hp, ih]

theorem simpleSplit_empty (sw : String → Rat) (maxW : Rat) :
    simpleSplit sw maxW "" = [] := rfl

/-! ## Claim theorems -/

/-- C1: for every input sequence of line items, each item with
Quantity > 0 yields exactly one rendered row, in input order, whose
Amount equals Unit Price × Quantity, and the Subtotal drawn by the
renderer equals the sum of these Amounts over exactly the items with
Quantity > 0; items with Quantity = 0 produce no row and contribute
nothing to the Subtotal. -/
theorem c1_rows_and_subtotal (sw : String → Rat) (df : List LineItem)
    (number : Int) (md : Metadata) :
    ((generate_invoice_pdf sw df number md).rows).map rowData
      = (df.filter (fun it => decide (0 < it.quantity))).map
          (itemData (simpleSplit sw descMaxWidth))
    ∧ (generate_invoice_pdf sw df number md).subtotal
      = ((df.filter (fun it => decide (0 < it.quantity))).map
          (fun it => it.unitPrice * (it.quantity : Rat))).sum := by
  constructor
  · exact processItems_fst_map (simpleSplit sw descMaxWidth) df ⟨firstRowY, 0, 0⟩
  · show (processItems (simpleSplit sw descMaxWidth) ⟨firstRowY, 0, 0⟩ df).2.subtotal = _
    rw [processItems_subtotal]
    show (0 : Rat) + _ = _
    rw [zero_add]

/-- C2: for every input the Grand Total drawn by the renderer equals
Subtotal + Subtotal × tax_rate/100 + assembly + delivery (stated for
non-negative tax_rate, assembly and delivery), and on the example
scenario (Widget $10.00 × 2, Gadget $5.00 × 0, tax 7%, assembly 3,
delivery 2) exactly one row is rendered with Subtotal = 20.00,
Tax = 1.40 and Grand Total = 26.40. -/
theorem c2_grand_total (sw : String → Rat) (df : List LineItem) (number : Int)
    (md : Metadata) (htax : 0 ≤ md.tax_rate) (hasm : 0 ≤ md.assembly)
    (hdel : 0 ≤ md.delivery) :
    ((generate_invoice_pdf sw df number md).grand
      = (generate_invoice_pdf sw df number md).subtotal
        + (generate_invoice_pdf sw df number md).subtotal * md.tax_rate / 100
        + md.assembly + md.delivery)
    ∧ (generate_invoice_pdf sw exampleItems number exampleMetadata).rows.length = 1
    ∧ (generate_invoice_pdf sw exampleItems number exampleMetadata).subtotal = 20
    ∧ (generate_invoice_pdf sw exampleItems number exampleMetadata).tax = 7/5
    ∧ (generate_invoice_pdf sw exampleItems number exampleMetadata).grand = 132/5 := by
  refine ⟨rfl, ?_, ?_, ?_, ?_⟩
  · simp [generate_invoice_pdf, processItems, exampleItems]
  · show (processItems (simpleSplit sw descMaxWidth) ⟨firstRowY, 0, 0⟩ exampleItems).2.subtotal
        = 20
    rw [processItems_subtotal]
    norm_num [exampleItems]
  · show (processItems (simpleSplit sw descMaxWidth) ⟨firstRowY, 0, 0⟩ exampleItems).2.subtotal
        * exampleMetadata.tax_rate / 100 = 7/5
    rw [processItems_subtotal]
    norm_num [exampleItems, exampleMetadata]
  · show (processItems (simpleSplit sw descMaxWidth) ⟨firstRowY, 0, 0⟩ exampleItems).2.subtotal
        + (processItems (simpleSplit sw descMaxWidth) ⟨firstRowY, 0, 0⟩ exampleItems).2.subtotal
          * exampleMetadata.tax_rate / 100
        + exampleMetadata.assembly + exampleMetadata.delivery = 132/5
    rw [processItems_subtotal]
    norm_num [exampleItems, exampleMetadata]

/-- C2 witness: the universal part and the example scenario evaluated at
a concrete metric, item list and metadata with all charges
non-negative. -/
theorem c2_grand_total_witness :
    (generate_invoice_pdf zeroWidth exampleItems 1001 exampleMetadata).subtotal = 20 :=
  (c2_grand_total zeroWidth [] 1001 exampleMetadata
    (by norm_num [exampleMetadata]) (by norm_num [exampleMetadata])
    (by norm_num [exampleMetadata])).2.2.1

/-- C3 counterexample: a single line item whose description wraps to 42
lines produces one row anchored at `firstRowY = 640.8`, above the bottom
margin — but its wrapped description line 41 is drawn at
`640.8 - 41·14 = 66.8 < 72`, strictly below the bottom margin of the
page, because the pagination check (line 88) runs only after the whole
row has been drawn.  This falsifies the claim that no row content is
ever drawn below the bottom margin. -/
theorem c3_counterexample :
    ((generate_invoice_pdf zeroWidth [tallItem] 1001 exampleMetadata).rows.getD 0
        default).descLines.length = 42
    ∧ margin
        ≤ ((generate_invoice_pdf zeroWidth [tallItem] 1001 exampleMetadata).rows.getD 0
            default).yTop
    ∧ descLineY
        ((generate_invoice_pdf zeroWidth [tallItem] 1001 exampleMetadata).rows.getD 0
          default) 41 < margin := by
  have hwrap : simpleSplit zeroWidth descMaxWidth tallDescription
      = List.replicate 42 "x" := rfl
  refine ⟨?_, ?_, ?_⟩
  · simp [generate_invoice_pdf, processItems, tallItem, hwrap]
  · simp only [generate_invoice_pdf, processItems, tallItem]
    norm_num [firstRowY, margin, pageHeight, inch]
  · simp only [generate_invoice_pdf, processItems, tallItem, hwrap]
    norm_num [descLineY, firstRowY, margin, pageHeight, inch, lineHeight]

/-- C3 amended: the renderer checks the cursor only after drawing each
row, and starts a new page (cursor reset to the top margin, body font
reissued) exactly when the advanced cursor has fallen strictly below
the bottom margin; consequently every row is anchored at or above the
bottom margin, but wrapped description lines after the first may be
drawn below it. -/
theorem c3_amended_pagination (sw : String → Rat) (df : List LineItem)
    (number : Int) (md : Metadata) :
    (∀ r ∈ (generate_invoice_pdf sw df number md).rows,
        margin ≤ r.yTop ∧ r.yTop ≤ pageHeight - margin)
    ∧ List.Chain' rowStep (generate_invoice_pdf sw df number md).rows := by
  have hlo : margin ≤ firstRowY := by norm_num [firstRowY, margin, pageHeight, inch]
  have hhi : firstRowY ≤ pageHeight - margin := by
    norm_num [firstRowY, margin, pageHeight, inch]
  exact ⟨processItems_yTop_bounds (simpleSplit sw descMaxWidth) df ⟨firstRowY, 0, 0⟩ hlo hhi,
    processItems_chain (simpleSplit sw descMaxWidth) df ⟨firstRowY, 0, 0⟩⟩

/-- C3 amended witness: the first rendered row of the example scenario
is anchored at or above the bottom margin. -/
theorem c3_amended_pagination_witness :
    margin ≤ ((generate_invoice_pdf zeroWidth exampleItems 1001 exampleMetadata).rows.getD 0
        default).yTop :=
  ((c3_amended_pagination zeroWidth exampleItems 1001 exampleMetadata).1 _
    (by simp [generate_invoice_pdf, processItems, exampleItems])).1

/-- C4: each successful download advances the persisted counter by
exactly 1 from the value loaded at the start of that call: when the load
returns `n`, the save writes `n + 1`, and a subsequent load reads
`n + 1`. -/
theorem c4_download_advances_by_one (sw : String → Rat) (df : List LineItem)
    (md : Metadata) (fs : Option String) :
    (downloadAction sw df md fs).1
        = some (_save_invoice_number (_load_invoice_number fs + 1))
    ∧ _load_invoice_number (downloadAction sw df md fs).1
        = _load_invoice_number fs + 1 :=
  ⟨rfl, load_save_roundtrip _⟩

/-- C5: the preview path never writes the counter store: after any
number of preview actions the persisted counter file — and hence the
persisted counter value — is exactly what it was before them. -/
theorem c5_preview_preserves_counter (sw : String → Rat) (df : List LineItem)
    (md : Metadata) (fs : Option String) (k : Nat) :
    (fun s => (previewAction sw df md s).1)^[k] fs = fs :=
  Function.iterate_fixed rfl k

/-- C6: loading from an absent counter source returns exactly the
default 1001; loading a source whose stripped contents do not parse as
an integer (empty or malformed) also returns 1001; and loading a source
holding a parsable integer returns that saved value.  `load` is a total
function — no input condition makes it raise. -/
theorem c6_load_default_or_value :
    _load_invoice_number none = 1001
    ∧ (∀ s, pyParseInt (pyStrip s) = none → _load_invoice_number (some s) = 1001)
    ∧ ∀ s n, pyParseInt (pyStrip s) = some n → _load_invoice_number (some s) = n := by
  refine ⟨rfl, fun s h => ?_, fun s n h => ?_⟩ <;> simp [_load_invoice_number, h]

/-- C6 witness: a malformed source and an empty source load as 1001, a
source holding ` 1005 ` loads as 1005. -/
theorem c6_load_witness :
    _load_invoice_number (some "garbage") = 1001
    ∧ _load_invoice_number (some "") = 1001
    ∧ _load_invoice_number (some " 1005 ") = 1005 :=
  ⟨c6_load_default_or_value.2.1 "garbage" (by decide),
   c6_load_default_or_value.2.1 "" (by decide),
   c6_load_default_or_value.2.2 " 1005 " 1005 (by decide)⟩

/-- C7: across every sequence of preview and download operations
(downloads possibly failing at the render), the persisted counter value
never decreases; and within any single operation the save event can
appear in the trace only strictly after the render-completed event — in
particular a download whose render raises performs no save at all. -/
theorem c7_monotone_and_save_after_render :
    (∀ (ops : List Op) (fs : Option String),
        _load_invoice_number fs ≤ _load_invoice_number (runOps ops fs).1)
    ∧ ∀ (fs : Option String) (op : Op) (pre suf : List CEv) (n : Int),
        (opRun fs op).2 = pre ++ CEv.saveE n :: suf → CEv.renderE ∈ pre := by
  constructor
  · intro ops
    induction ops with
    | nil => intro fs; exact le_refl _
    | cons op rest ih =>
      intro fs
      calc _load_invoice_number fs ≤ _load_invoice_number (opRun fs op).1 := by
            cases op with
            | previewOp => exact le_refl _
            | downloadOp ok =>
              cases ok
              · exact le_refl _
              · show _load_invoice_number fs ≤ _load_invoice_number
                    (some (_save_invoice_number (_load_invoice_number fs + 1)))
                rw [load_save_roundtrip]
                omega
        _ ≤ _ := ih (opRun fs op).1
  · intro fs op pre suf n h
    cases op with
    | previewOp =>
      exfalso
      have hmem : CEv.saveE n ∈ (opRun fs Op.previewOp).2 := by rw [h]; simp
      simp [opRun] at hmem
    | downloadOp ok =>
      cases ok with
      | false =>
        exfalso
        have hmem : CEv.saveE n ∈ (opRun fs (Op.downloadOp false)).2 := by rw [h]; simp
        simp [opRun] at hmem
      | true =>
        rcases pre with _ | ⟨a, _ | ⟨b, _ | ⟨c, pre⟩⟩⟩ <;>
          simp only [opRun] at h <;> simp_all

/-- C7 witness: in a successful download from an absent counter file,
the save of 1002 is preceded in the trace by the completed render. -/
theorem c7_witness : CEv.renderE ∈ [CEv.loadE 1001, CEv.renderE] :=
  c7_monotone_and_save_after_render.2 none (Op.downloadOp true)
    [CEv.loadE 1001, CEv.renderE] [] 1002 (by decide)

/-- C8 counterexample: the empty-description item `emptyDescItem` has
Quantity 0, so the renderer skips it entirely — no row is drawn, its
SKU, unit price, quantity and amount are not drawn and the cursor does
not advance — contradicting the claim, which asserts that every item
with empty description still consumes a row. -/
theorem c8_counterexample :
    (generate_invoice_pdf zeroWidth [emptyDescItem] 1001 exampleMetadata).rows = [] := by
  simp [generate_invoice_pdf, processItems, emptyDescItem]

/-- C8 amended: for every line item with Quantity > 0 whose Description
is the empty string, the renderer produces zero wrapped description
lines for it but the item still consumes a row: its SKU, unit price,
quantity and amount are drawn, and the vertical cursor still advances
for that item (by the 4-point row gap alone). -/
theorem c8_amended_empty_description (sw : String → Rat) (df : List LineItem)
    (number : Int) (md : Metadata) (it : LineItem) (hmem : it ∈ df)
    (hdesc : it.description = "") (hq : 0 < it.quantity) :
    ∃ r ∈ (generate_invoice_pdf sw df number md).rows,
      r.sku = it.sku ∧ r.descLines = [] ∧ r.unitPrice = it.unitPrice
      ∧ r.qty = it.quantity ∧ r.amount = it.unitPrice * (it.quantity : Rat)
      ∧ rowAdvance r = 4 := by
  have hmap : ((generate_invoice_pdf sw df number md).rows).map rowData
      = (df.filter (fun it => decide (0 < it.quantity))).map
          (itemData (simpleSplit sw descMaxWidth)) :=
    processItems_fst_map (simpleSplit sw descMaxWidth) df ⟨firstRowY, 0, 0⟩
  have hfil : it ∈ df.filter (fun it => decide (0 < it.quantity)) :=
    List.mem_filter.mpr ⟨hmem, by simpa using hq⟩
  have hin : itemData (simpleSplit sw descMaxWidth) it
      ∈ ((generate_invoice_pdf sw df number md).rows).map rowData := by
    rw [hmap]
    exact List.mem_map_of_mem _ hfil
  rcases List.mem_map.mp hin with ⟨r, hr, hrd⟩
  refine ⟨r, hr, ?_⟩
  rw [rowData, itemData, Prod.mk.injEq, Prod.mk.injEq, Prod.mk.injEq,
    Prod.mk.injEq] at hrd
  obtain ⟨hsku, hdl, hup, hqty, ham⟩ := hrd
  have hdl0 : r.descLines = [] := by rw [hdl, hdesc, simpleSplit_empty]
  refine ⟨hsku, hdl0, hup, hqty, ham, ?_⟩
  rw [rowAdvance, hdl0]
  norm_num [lineHeight]

/-- C8 amended witness: the empty-description, quantity-2 item yields a
row with zero description lines, all its data, and a 4-point advance. -/
theorem c8_amended_witness :
    ∃ r ∈ (generate_invoice_pdf zeroWidth [c8WitnessItem] 1001 exampleMetadata).rows,
      r.sku = c8WitnessItem.sku ∧ r.descLines = []
      ∧ r.unitPrice = c8WitnessItem.unitPrice ∧ r.qty = c8WitnessItem.quantity
      ∧ r.amount = c8WitnessItem.unitPrice * (c8WitnessItem.quantity : Rat)
      ∧ rowAdvance r = 4 :=
  c8_amended_empty_description zeroWidth [c8WitnessItem] 1001 exampleMetadata
    c8WitnessItem (by simp) rfl (by decide)

/-- C9: a failing write inside `_save_invoice_number` propagates the
I/O error to the caller unchanged (the function body has no exception
handler), a successful write persists `str(num)`, and `load` is the
only counter operation that soft-fails to the default 1001. -/
theorem c9_save_failure_propagates :
    (∀ (num : Int) (e : String),
        saveAttempt num (WriteOutcome.ioError e) = Except.error e)
    ∧ (∀ num : Int, saveAttempt num WriteOutcome.success
        = Except.ok (some (_save_invoice_number num)))
    ∧ ∀ s, pyParseInt (pyStrip s) = none → _load_invoice_number (some s) = 1001 := by
  refine ⟨fun num e => rfl, fun num => rfl, fun s h => ?_⟩
  simp [_load_invoice_number, h]

/-- C9 witness: a permission-denied write surfaces as that error, and a
corrupt source still loads as the default. -/
theorem c9_save_witness :
    saveAttempt 1002 (WriteOutcome.ioError "permission denied")
        = Except.error "permission denied"
    ∧ _load_invoice_number (some "corrupt") = 1001 :=
  ⟨c9_save_failure_propagates.1 1002 "permission denied",
   c9_save_failure_propagates.2.2 "corrupt" (by decide)⟩

/-- C10: a line item with strictly negative Quantity is treated exactly
like a zero-quantity item: the renderer's entire output is unchanged
whether the item appears with its negative quantity, with quantity 0,
or not at all — no row is drawn for it and it contributes nothing to
the Subtotal (the skip condition at line 75 is `qty <= 0`). -/
theorem c10_negative_quantity_skipped (sw : String → Rat) (number : Int)
    (md : Metadata) (pre post : List LineItem) (it : LineItem)
    (h : it.quantity < 0) :
    generate_invoice_pdf sw (pre ++ it :: post) number md
        = generate_invoice_pdf sw (pre ++ { it with quantity := 0 } :: post) number md
    ∧ generate_invoice_pdf sw (pre ++ it :: post) number md
        = generate_invoice_pdf sw (pre ++ post) number md := by
  have h1 := processItems_skip (simpleSplit sw descMaxWidth) it (le_of_lt h) pre post
  have h2 := processItems_skip (simpleSplit sw descMaxWidth) { it with quantity := 0 }
      (le_refl 0) pre post
  constructor <;> simp [generate_invoice_pdf, h1, h2]

/-- C10 witness: the renderer output for the quantity −3 item alone
equals the output for the empty item list. -/
theorem c10_negative_quantity_witness :
    generate_invoice_pdf zeroWidth [negQtyItem] 1001 exampleMetadata
      = generate_invoice_pdf zeroWidth [] 1001 exampleMetadata :=
  (c10_negative_quantity_skipped zeroWidth 1001 exampleMetadata [] [] negQtyItem
    (by decide)).2

end InvoiceApp
